import Mathlib

/-!
Verification development for the score-my-food ingredient/nutrition
analysis engine (`backend/core/utils.py` and `backend/core/views.py`).

The Python source is shallowly embedded: Python floats are modelled as
rationals, Python `None` as `Option.none`, a Python exception as an
`Option.none` result of the embedded function, and the regular-expression
searches of the source as executable character-list scanners that follow
the concrete patterns of the source.
-/

namespace ScoreMyFood

/-! ### Character classes used by the regex embeddings -/

/-- Python `\w` restricted to the ASCII inputs the engine handles. -/
def isWordChar (c : Char) : Bool := c.isAlphanum || c = '_'

/-- Python `\s` (ASCII whitespace: space, tab, newline, CR, VT, FF). -/
def isPySpace (c : Char) : Bool :=
  c = ' ' || c = '\t' || c = '\n' || c = '\r' || c = '\x0b' || c = '\x0c'

/-- ASCII digit, as matched by `\d` on the engine's inputs. -/
def isDigitChar (c : Char) : Bool := c.isDigit

/-- Lower-cased string, mirroring Python `str.lower` on ASCII text. -/
def pyLower (s : String) : String := String.mk (s.data.map Char.toLower)

/-- Upper-cased string, mirroring Python `str.upper` on ASCII text. -/
def pyUpper (s : String) : String := String.mk (s.data.map Char.toUpper)

/-- `needle` occurs as a prefix of `hay` (character lists). -/
def isPreList : List Char → List Char → Bool
  | [], _ => true
  | _ :: _, [] => false
  | a :: xs, b :: ys => a = b && isPreList xs ys

/-- Case-insensitive prefix test (pattern given lower-case). -/
def ciIsPreList : List Char → List Char → Bool
  | [], _ => true
  | _ :: _, [] => false
  | a :: xs, b :: ys => a = b.toLower && ciIsPreList xs ys

/-- Python `needle in hay` substring containment. -/
def subInList (needle : List Char) : List Char → Bool
  | [] => isPreList needle []
  | c :: rest => isPreList needle (c :: rest) || subInList needle rest

/-- Python `needle in hay` on strings. -/
def pyIn (needle hay : String) : Bool := subInList needle.data hay.data

/-- Strip any of the characters of `cset` from both ends (Python `str.strip(chars)`). -/
def stripBoth (cset : List Char) (s : List Char) : List Char :=
  ((s.dropWhile (fun c => cset.contains c)).reverse.dropWhile
    (fun c => cset.contains c)).reverse

/-- Python `str.strip()` (whitespace) on character lists. -/
def stripWs (s : List Char) : List Char :=
  ((s.dropWhile isPySpace).reverse.dropWhile isPySpace).reverse

/-- Remove every `' '` character (Python `str.replace(" ", "")`). -/
def removeSpaces (s : String) : String := String.mk (s.data.filter (fun c => c ≠ ' '))

/-- Left-to-right non-overlapping removal of `pat` (Python `str.replace(pat, "")`),
fuelled by the list length. -/
def removeAllGo (pat : List Char) : Nat → List Char → List Char
  | 0, cs => cs
  | _ + 1, [] => []
  | fuel + 1, c :: rest =>
      if isPreList pat (c :: rest) then
        removeAllGo pat fuel ((c :: rest).drop pat.length)
      else
        c :: removeAllGo pat fuel rest

/-- Python `s.replace(pat, "")`. -/
def removeAll (s pat : String) : String :=
  String.mk (removeAllGo pat.data (s.data.length + 1) s.data)

/-- First three characters (Python `s[:3]`). -/
def take3Str (s : String) : String := String.mk (s.data.take 3)

/-! ### Python `round` (half-to-even) on rationals -/

/-- Python `round(x)` for a real-valued `x`, i.e. round half to even. -/
def pyRound (q : ℚ) : ℤ :=
  if q - (⌊q⌋ : ℚ) < 1 / 2 then ⌊q⌋
  else if 1 / 2 < q - (⌊q⌋ : ℚ) then ⌊q⌋ + 1
  else if ⌊q⌋ % 2 = 0 then ⌊q⌋ else ⌊q⌋ + 1

lemma pyRound_self_bounds (q : ℚ) : ⌊q⌋ ≤ pyRound q ∧ pyRound q ≤ ⌊q⌋ + 1 := by
  unfold pyRound
  split_ifs <;> omega

lemma pyRound_mono {a b : ℚ} (h : a ≤ b) : pyRound a ≤ pyRound b := by
  by_cases hf : ⌊a⌋ = ⌊b⌋
  · have hr : a - (⌊a⌋ : ℚ) ≤ b - (⌊b⌋ : ℚ) := by
      rw [hf]; linarith
    unfold pyRound
    rw [hf]
    split_ifs with h1 h2 h3 h4 h5 h6 h7 h8 <;> first
      | omega
      | (exfalso; rw [hf] at hr; linarith)
  · have hlt : ⌊a⌋ < ⌊b⌋ :=
      lt_of_le_of_ne (Int.floor_le_floor h) hf
    have h1 := (pyRound_self_bounds a).2
    have h2 := (pyRound_self_bounds b).1
    omega

lemma pyRound_intCast (n : ℤ) : pyRound (n : ℚ) = n := by
  unfold pyRound
  have h0 : ⌊(n : ℚ)⌋ = n := Int.floor_intCast n
  rw [h0]
  have h1 : (n : ℚ) - (n : ℚ) = 0 := by ring
  rw [h1]
  norm_num

lemma pyRound_le_int {q : ℚ} {n : ℤ} (h : q ≤ (n : ℚ)) : pyRound q ≤ n := by
  have := pyRound_mono h
  rwa [pyRound_intCast] at this

lemma int_le_pyRound {q : ℚ} {n : ℤ} (h : (n : ℚ) ≤ q) : n ≤ pyRound q := by
  have := pyRound_mono h
  rwa [pyRound_intCast] at this

/-! ### `split_top_level_commas` (utils.py lines 150-167)

The source keeps a `parts` list, a `buf` character buffer and a paren
`depth`; `(` increments the depth, `)` decrements it clamped at zero, a
comma at depth 0 flushes the stripped buffer (dropping empty parts), and
every non-splitting character is appended to the buffer.  `buf` is kept
reversed here. -/

/-- Flush the (reversed) buffer: strip surrounding whitespace and drop
the part when it is empty (`if part: parts.append(part)`). -/
def stlcFlush (buf : List Char) : List String :=
  if String.mk (stripWs buf.reverse) = "" then []
  else [String.mk (stripWs buf.reverse)]

/-- New paren depth after reading `ch` (clamped at zero via `Nat` subtraction). -/
def stlcDepth (ch : Char) (depth : Nat) : Nat :=
  if ch = '(' then depth + 1 else if ch = ')' then depth - 1 else depth

def stlcGo : List Char → List Char → Nat → List String
  | [], buf, _ => stlcFlush buf
  | ch :: rest, buf, depth =>
      if ch = ',' ∧ stlcDepth ch depth = 0 then
        stlcFlush buf ++ stlcGo rest [] (stlcDepth ch depth)
      else
        stlcGo rest (ch :: buf) (stlcDepth ch depth)

def split_top_level_commas (s : String) : List String :=
  stlcGo s.data [] 0

lemma stlcFlush_no_empty {buf : List Char} {p : String}
    (hp : p ∈ stlcFlush buf) : p ≠ "" := by
  unfold stlcFlush at hp
  by_cases h : String.mk (stripWs buf.reverse) = ""
  · simp [h] at hp
  · simp [h] at hp
    rw [hp]; exact h

lemma stlcGo_no_empty :
    ∀ (cs : List Char) (buf : List Char) (d : Nat) (p : String),
      p ∈ stlcGo cs buf d → p ≠ "" := by
  intro cs
  induction cs with
  | nil =>
      intro buf d p hp
      exact stlcFlush_no_empty hp
  | cons ch rest ih =>
      intro buf d p hp
      unfold stlcGo at hp
      split at hp
      · rcases List.mem_append.mp hp with hp | hp
        · exact stlcFlush_no_empty hp
        · exact ih _ _ _ hp
      · exact ih _ _ _ hp

/-! ### Percentage annotations in ingredient tokens (utils.py lines 236-244)

`re.search(r"(?i)\b(\d{1,3}(?:\.\d+)?)\s*%", tok)` extracts the first
percentage; `re.sub(r"\((\d{1,3}(?:\.\d+)?)\s*%\)", "", tok)` removes only
the parenthesized form from the displayed name. -/

/-- Numeric value of a digit run. -/
def digitsToNat (ds : List Char) : ℕ :=
  ds.foldl (fun n c => n * 10 + (c.toNat - '0'.toNat)) 0

/-- `float("<ds>.<fr>")` for a digit run `ds` and (possibly empty) fraction `fr`. -/
def pctValue (ds fr : List Char) : ℚ :=
  (digitsToNat ds : ℚ) +
    (if fr = [] then 0 else (digitsToNat fr : ℚ) / ((10 : ℚ) ^ fr.length))

/-- After the integer digits of `\d{1,3}`, match `(?:\.\d+)?\s*%` and return
the fraction digits.  A fractional part whose tail fails to reach `%`
cannot fall back (the optional group would leave `.` unconsumed), matching
the regex backtracking behaviour. -/
def pctAfterDigits : List Char → Option (List Char)
  | '.' :: r2 =>
      if (r2.takeWhile isDigitChar).length ≠ 0 then
        match (r2.drop (r2.takeWhile isDigitChar).length).dropWhile isPySpace with
        | '%' :: _ => some (r2.takeWhile isDigitChar)
        | _ => none
      else none
  | rest =>
      match rest.dropWhile isPySpace with
      | '%' :: _ => some []
      | _ => none

/-- Try the `\d{1,3}` group at the current position with the regex's greedy
order (3, then 2, then 1 digits). -/
def pctTryAt (cs : List Char) : Option ℚ :=
  (if 3 ≤ (cs.takeWhile isDigitChar).length then
     (pctAfterDigits (cs.drop 3)).map (fun fr => pctValue (cs.take 3) fr)
   else none) <|>
  (if 2 ≤ (cs.takeWhile isDigitChar).length then
     (pctAfterDigits (cs.drop 2)).map (fun fr => pctValue (cs.take 2) fr)
   else none) <|>
  (if 1 ≤ (cs.takeWhile isDigitChar).length then
     (pctAfterDigits (cs.drop 1)).map (fun fr => pctValue (cs.take 1) fr)
   else none)

/-- `prev` is the character before the current position (word-boundary test). -/
def boundaryOK : Option Char → Bool
  | none => true
  | some c => !isWordChar c

/-- Leftmost match of `(?i)\b(\d{1,3}(?:\.\d+)?)\s*%`, returning the parsed
group-1 float. -/
def pctSearchGo (prev : Option Char) : List Char → Option ℚ
  | [] => none
  | c :: rest =>
      match (if boundaryOK prev then pctTryAt (c :: rest) else none) with
      | some v => some v
      | none => pctSearchGo (some c) rest

/-- After a literal `(`, match `(\d{1,3}(?:\.\d+)?)\s*%\)` and return the
rest of the input after the closing paren. -/
def parenPctAfterDigits : List Char → Option (List Char)
  | '.' :: r2 =>
      if (r2.takeWhile isDigitChar).length ≠ 0 then
        match (r2.drop (r2.takeWhile isDigitChar).length).dropWhile isPySpace with
        | '%' :: ')' :: r3 => some r3
        | _ => none
      else none
  | rest =>
      match rest.dropWhile isPySpace with
      | '%' :: ')' :: r3 => some r3
      | _ => none

def parenPctTryAt (cs : List Char) : Option (List Char) :=
  (if 3 ≤ (cs.takeWhile isDigitChar).length then parenPctAfterDigits (cs.drop 3)
   else none) <|>
  (if 2 ≤ (cs.takeWhile isDigitChar).length then parenPctAfterDigits (cs.drop 2)
   else none) <|>
  (if 1 ≤ (cs.takeWhile isDigitChar).length then parenPctAfterDigits (cs.drop 1)
   else none)

/-- `re.sub(r"\((\d{1,3}(?:\.\d+)?)\s*%\)", "", ·)`: left-to-right
non-overlapping removal, fuelled by the input length. -/
def pctSubGo : Nat → List Char → List Char
  | 0, cs => cs
  | _ + 1, [] => []
  | fuel + 1, c :: rest =>
      if c = '(' then
        match parenPctTryAt rest with
        | some rest2 => pctSubGo fuel rest2
        | none => c :: pctSubGo fuel rest
      else c :: pctSubGo fuel rest

/-- `re.sub(r"\s+", " ", ·)`: collapse whitespace runs to a single space. -/
def collapseWsGo : Nat → List Char → List Char
  | 0, cs => cs
  | _ + 1, [] => []
  | fuel + 1, c :: rest =>
      if isPySpace c then ' ' :: collapseWsGo fuel (rest.dropWhile isPySpace)
      else c :: collapseWsGo fuel rest

/-- The per-token body of the `parse_ingredients` loop (utils.py 237-244):
strip `" .;"`, extract the first percent match, remove parenthesized
percent annotations from the name, collapse whitespace, strip `" ()"`,
and drop the entry when the name is empty. -/
def ingredient_entry (tok : String) : Option (String × Option ℚ) :=
  match stripBoth [' ', '.', ';'] tok.data with
  | td =>
      match String.mk (stripBoth [' ', '(', ')']
          (collapseWsGo (td.length + 1) (pctSubGo (td.length + 1) td))) with
      | name => if name = "" then none else some (name, pctSearchGo none td)

/-- The ingredient-entry list built by `parse_ingredients` from an
ingredients block (utils.py 236-244). -/
def parse_ingredients_items (block : String) : List (String × Option ℚ) :=
  (split_top_level_commas block).filterMap ingredient_entry

/-! ### Additive-code extraction (utils.py lines 15-24 and 173-206)

`E_INS_RE` matches `\b(?:(?:E|INS)\s*[-\s]?(\d{3,4}[a-dA-D]?)|(1[0-9]{2}[a-dA-D]))\b`
case-insensitively; `extract_additives` canonicalizes each captured code,
prefers the `INS` form when the text mentions the code with an `INS`
prefix, and deduplicates preserving first-seen order. -/

/-- Letter suffix class `[a-dA-D]`. -/
def isLetterAD (c : Char) : Bool :=
  c.toLower = 'a' || c.toLower = 'b' || c.toLower = 'c' || c.toLower = 'd'

/-- Rest of input is empty or starts with a non-word character (`\b` after a
word character). -/
def boundaryAfter : List Char → Bool
  | [] => true
  | c :: _ => !isWordChar c

/-- After an `E`/`INS` prefix: `\s*[-\s]?(\d{3,4}[a-dA-D]?)\b`.  The digit
run is taken greedily; runs of length other than 3 or 4 cannot match (any
shorter take leaves a digit, which fails both the optional letter and the
boundary).  Returns the captured group and the rest after the match. -/
def einsAfterPre (cs : List Char) : Option (List Char × List Char) :=
  match (if (cs.dropWhile isPySpace).head? = some '-' then
           (cs.dropWhile isPySpace).drop 1
         else cs.dropWhile isPySpace) with
  | cs2 =>
      match cs2.takeWhile isDigitChar with
      | ds =>
          if ds.length = 3 ∨ ds.length = 4 then
            match cs2.drop ds.length with
            | c :: r2 =>
                if isLetterAD c then
                  if boundaryAfter r2 then some (ds ++ [c], r2) else none
                else if !isWordChar c then some (ds, c :: r2) else none
            | [] => some (ds, [])
          else none

/-- The bare alternative `(1[0-9]{2}[a-dA-D])\b`. -/
def einsBare : List Char → Option (List Char × List Char)
  | '1' :: d2 :: d3 :: l :: rest =>
      if isDigitChar d2 && isDigitChar d3 && isLetterAD l && boundaryAfter rest then
        some (['1', d2, d3, l], rest)
      else none
  | _ => none

/-- Try `E_INS_RE` at the current position (the leading `\b` is checked by
the caller).  The `E` and `INS` prefixes and the bare form start with
distinct characters, so the regex alternation order collapses to a case
split on the first character. -/
def einsTryAt : List Char → Option (List Char × List Char)
  | [] => none
  | c :: rest =>
      if c.toLower = 'e' then einsAfterPre rest
      else if ciIsPreList ['i', 'n', 's'] (c :: rest) then einsAfterPre ((c :: rest).drop 3)
      else if c = '1' then einsBare (c :: rest)
      else none

/-- `E_INS_RE.finditer`: non-overlapping left-to-right scan.  Every match
ends in a digit or letter, so the previous character after a match is the
captured code's last character. -/
def einsFindGo : Nat → Option Char → List Char → List (List Char)
  | 0, _, _ => []
  | _ + 1, _, [] => []
  | fuel + 1, prev, c :: rest =>
      match (if boundaryOK prev then einsTryAt (c :: rest) else none) with
      | some (code, rest2) =>
          code :: einsFindGo fuel (code.getLast? <|> some c) rest2
      | none => einsFindGo fuel (some c) rest

/-- `re.search(rf"\bINS\s*[-\s]?{code}\b", text, re.I)` (utils.py line 196). -/
def insMentionAt (code : List Char) (cs : List Char) : Bool :=
  ciIsPreList ['i', 'n', 's'] cs &&
    (match (if ((cs.drop 3).dropWhile isPySpace).head? = some '-' then
              ((cs.drop 3).dropWhile isPySpace).drop 1
            else (cs.drop 3).dropWhile isPySpace) with
     | cs2 =>
         ciIsPreList (code.map Char.toLower) cs2 &&
           boundaryAfter (cs2.drop code.length))

def insMentionGo (code : List Char) (prev : Option Char) : List Char → Bool
  | [] => false
  | c :: rest =>
      (boundaryOK prev && insMentionAt code (c :: rest)) ||
        insMentionGo code (some c) rest

/-- `_canon_additive` (utils.py 173-177): strip, upper-case, drop spaces,
and prefix `E` unless the code already starts with `E` or `INS`. -/
def canon_additive (code : String) : String :=
  match removeSpaces (pyUpper (String.mk (stripWs code.data))) with
  | c =>
      if isPreList ['E'] c.data || isPreList ['I', 'N', 'S'] c.data then c
      else "E" ++ c

/-- The dedup loop of `extract_additives` (utils.py 200-205): keep the
upper-cased first occurrence of each code. -/
def dedupUpperFirst (seen : List String) : List String → List String
  | [] => []
  | c :: rest =>
      if seen.contains (pyUpper c) then dedupUpperFirst seen rest
      else pyUpper c :: dedupUpperFirst (pyUpper c :: seen) rest

/-- `extract_additives` (utils.py 179-206). -/
def extract_additives (text : String) : List String :=
  if text = "" then []
  else
    dedupUpperFirst []
      ((einsFindGo (text.data.length + 1) none text.data).map (fun c =>
        if insMentionGo c none text.data then "INS" ++ pyUpper (String.mk c)
        else canon_additive (String.mk c)))

lemma dedupUpperFirst_nodup_aux :
    ∀ (l : List String) (seen : List String),
      (dedupUpperFirst seen l).Nodup ∧
        ∀ x ∈ dedupUpperFirst seen l, ¬ x ∈ seen := by
  intro l
  induction l with
  | nil => intro seen; simp [dedupUpperFirst]
  | cons c rest ih =>
      intro seen
      unfold dedupUpperFirst
      by_cases h : seen.contains (pyUpper c)
      · simp only [h, if_pos]
        exact ih seen
      · simp only [h, if_neg, Bool.not_eq_true]
        have hmem : ¬ (pyUpper c) ∈ seen := by
          intro hc
          exact absurd (List.elem_eq_true_of_mem hc) (by simpa using h)
        obtain ⟨hnd, hni⟩ := ih (pyUpper c :: seen)
        refine ⟨List.nodup_cons.mpr ⟨fun hc => ?_, hnd⟩, ?_⟩
        · exact hni _ hc (List.mem_cons_self _ _)
        · intro x hx
          rcases List.mem_cons.mp hx with rfl | hx2
          · exact hmem
          · intro hxs
            exact hni _ hx2 (List.mem_cons_of_mem _ hxs)

/-- The result of `extract_additives` never contains duplicates. -/
lemma extract_additives_nodup (t : String) : (extract_additives t).Nodup := by
  unfold extract_additives
  by_cases h : t = ""
  · simp [h]
  · simp only [h, if_neg, not_false_iff]
    exact (dedupUpperFirst_nodup_aux _ _).1

/-! ### Beverage classification (utils.py 48-57 and 339-352) -/

/-- `BEVERAGE_HINTS` (utils.py 48-52). -/
def BEVERAGE_HINTS : List String :=
  ["soft drink", "juice", "nectar", "soda", "cola", "tonic", "energy drink",
   "iced tea", "drink", "beverage", "water", "sparkling", "isotonic",
   "milk drink", "flavoured milk", "yogurt drink", "lassi", "buttermilk"]

/-- `NON_BEVERAGE_LIQUIDS` (utils.py 54-57); the last entry contains a
zero-width no-break space exactly as in the source. -/
def NON_BEVERAGE_LIQUIDS : List String :=
  ["oil", "ghee", "sauce", "ketchup", "vinegar", "dressing",
   "soy sauce", "syrup", "chutney", "pickle", "rel﻿ish"]

/-- A product record as consumed by `is_beverage`; each textual field may be
missing or `None` (`p.get(k) or ""` treats both as the empty string). -/
structure Product where
  product_name : Option String
  categories : Option String
  quantity : Option String

/-- `" ".join(categories.lower().split(","))`: every comma becomes a space. -/
def commasToSpaces (s : String) : String :=
  String.mk (s.data.map (fun c => if c = ',' then ' ' else c))

def anyHintIn (hints : List String) (blob : String) : Bool :=
  hints.any (fun h => pyIn h blob)

/-- `is_beverage` (utils.py 339-352), with the two-iteration field loop
unrolled: name first for both keyword families, then the category string,
then the volume-unit quantity heuristic. -/
def is_beverage (p : Product) : Bool :=
  if anyHintIn BEVERAGE_HINTS (pyLower (p.product_name.getD "")) then true
  else if anyHintIn NON_BEVERAGE_LIQUIDS (pyLower (p.product_name.getD "")) then false
  else if anyHintIn BEVERAGE_HINTS (commasToSpaces (pyLower (p.categories.getD ""))) then true
  else if anyHintIn NON_BEVERAGE_LIQUIDS (commasToSpaces (pyLower (p.categories.getD ""))) then false
  else
    (pyIn "ml" (pyLower (p.quantity.getD "")) || pyIn "l" (pyLower (p.quantity.getD ""))) &&
      !anyHintIn NON_BEVERAGE_LIQUIDS (pyLower (p.product_name.getD ""))

/-- Per-field verdict, following the spec's wording: a beverage keyword
decides "beverage", else a non-beverage-liquid keyword decides "not
beverage", else the field is neutral. -/
def beverage_field_verdict (blob : String) : Option Bool :=
  if anyHintIn BEVERAGE_HINTS blob then some true
  else if anyHintIn NON_BEVERAGE_LIQUIDS blob then some false
  else none

/-- The amended decision order: each textual field (name, then category)
short-circuits on its own verdict before the volume-unit heuristic runs. -/
def is_beverage_per_field (p : Product) : Bool :=
  match beverage_field_verdict (pyLower (p.product_name.getD "")) with
  | some b => b
  | none =>
      match beverage_field_verdict (commasToSpaces (pyLower (p.categories.getD ""))) with
      | some b => b
      | none =>
          (pyIn "ml" (pyLower (p.quantity.getD "")) ||
             pyIn "l" (pyLower (p.quantity.getD ""))) &&
            !anyHintIn NON_BEVERAGE_LIQUIDS (pyLower (p.product_name.getD ""))

/-- The decision order as claim C8 states it: rule (1) scans beverage
keywords over name OR category before rule (2) scans the non-beverage
keywords over either field. -/
def is_beverage_claim_order (p : Product) : Bool :=
  if anyHintIn BEVERAGE_HINTS (pyLower (p.product_name.getD "")) ||
       anyHintIn BEVERAGE_HINTS (commasToSpaces (pyLower (p.categories.getD ""))) then true
  else if anyHintIn NON_BEVERAGE_LIQUIDS (pyLower (p.product_name.getD "")) ||
       anyHintIn NON_BEVERAGE_LIQUIDS (commasToSpaces (pyLower (p.categories.getD ""))) then false
  else
    (pyIn "ml" (pyLower (p.quantity.getD "")) || pyIn "l" (pyLower (p.quantity.getD ""))) &&
      !anyHintIn NON_BEVERAGE_LIQUIDS (pyLower (p.product_name.getD ""))

/-! ### Nutrition coercion (utils.py 290-337)

A raw field value of the upstream record is `None`/absent, a number, or a
non-numeric value; `truthy` models Python truthiness (used by the `or`
chains) and `parse` models `float(x)` (`none` when `float` raises). -/

structure RawVal where
  isNone : Bool
  truthy : Bool
  parse : Option ℚ
  deriving DecidableEq

/-- A missing key or an explicit `None`. -/
def RawVal.absent : RawVal := ⟨true, false, none⟩

/-- A numeric value (a float, or a numeric string: every non-zero number is
truthy; a numeric string is always truthy). -/
def RawVal.num (q : ℚ) : RawVal := ⟨false, decide (q ≠ 0), some q⟩

/-- A non-empty string that `float` cannot parse. -/
def RawVal.bad : RawVal := ⟨false, true, none⟩

/-- `_to_float` (utils.py 290-294): `float(x)`, with `TypeError`/`ValueError`
swallowed to `None`. -/
def to_float (v : RawVal) : Option ℚ := v.parse

/-- Python `a or b`. -/
def pyOrV (a b : RawVal) : RawVal := if a.truthy then a else b

/-- Python `b if a is None else a` (the two-step fallbacks for
saturated/trans fat). -/
def ifNoneV (a b : RawVal) : RawVal := if a.isNone then b else a

/-- The raw nutriments record: one `RawVal` per field name consulted by
`coerce_nutrition`.  Hyphenated upstream names are suffixed `_hy`. -/
structure RawNutr where
  sodium_100g : RawVal
  sodium_mg_100g : RawVal
  salt_100g : RawVal
  energy_kj_100g_hy : RawVal
  energy_kj_100g : RawVal
  energy_100g : RawVal
  energy_kcal_100g_hy : RawVal
  saturated_fat_100g_hy : RawVal
  saturated_fat_100g : RawVal
  trans_fat_100g_hy : RawVal
  trans_fat_100g : RawVal
  sugars_100g : RawVal
  fiber_100g : RawVal
  proteins_100g : RawVal
  fruits_estimate_100g : RawVal
  fruits_100g : RawVal

/-- A raw record with every field absent. -/
def RawNutr.empty : RawNutr :=
  ⟨.absent, .absent, .absent, .absent, .absent, .absent, .absent, .absent,
   .absent, .absent, .absent, .absent, .absent, .absent, .absent, .absent⟩

/-- The canonical nutrition profile produced by `coerce_nutrition` and
consumed by the score engine. -/
structure Nutrition where
  energy_kj : Option ℚ
  sugar_g : Option ℚ
  sodium_mg : Option ℚ
  sat_fat_g : Option ℚ
  trans_fat_g : Option ℚ
  fiber_g : Option ℚ
  protein_g : Option ℚ
  fruit_pct : Option ℚ
  deriving DecidableEq

/-- `_empty_nutrition` (views.py 39-49): the all-unknown profile both OCR
endpoints pass to the engine. -/
def empty_nutrition : Nutrition :=
  ⟨none, none, none, none, none, none, none, none⟩

/-- `coerce_nutrition` (utils.py 296-337).  The result is `none` when the
Python code raises: in the `sodium_100g` branch the source computes
`_to_float(nutr.get("sodium_100g")) * 1000.0` without a `None` guard, so a
present but unparseable value raises `TypeError`. -/
def coerce_nutrition (nutr : RawNutr) : Option Nutrition :=
  (if !nutr.sodium_100g.isNone then
      match to_float nutr.sodium_100g with
      | some q => some (some (q * 1000))
      | none => none
    else if !nutr.sodium_mg_100g.isNone then
      some (to_float nutr.sodium_mg_100g)
    else if !nutr.salt_100g.isNone then
      some ((to_float nutr.salt_100g).map (fun q => q * 393))
    else some none).map (fun sodium_mg =>
  { energy_kj :=
      if (pyOrV (pyOrV nutr.energy_kj_100g_hy nutr.energy_kj_100g) nutr.energy_100g).isNone
          ∧ !nutr.energy_kcal_100g_hy.isNone then
        (to_float nutr.energy_kcal_100g_hy).map (fun kcal => kcal * (523 / 125))
      else
        to_float (pyOrV (pyOrV nutr.energy_kj_100g_hy nutr.energy_kj_100g) nutr.energy_100g)
    sugar_g := to_float nutr.sugars_100g
    sodium_mg := sodium_mg
    sat_fat_g := to_float (ifNoneV nutr.saturated_fat_100g_hy nutr.saturated_fat_100g)
    trans_fat_g := to_float (ifNoneV nutr.trans_fat_100g_hy nutr.trans_fat_100g)
    fiber_g := to_float nutr.fiber_100g
    protein_g := to_float nutr.proteins_100g
    fruit_pct := to_float (pyOrV nutr.fruits_estimate_100g nutr.fruits_100g) })

/-! ### Word-pattern searches used by the score engine

Each regex of the scoring path is an alternation of simple sequences of
literals, optional single characters and whitespace runs, anchored by word
boundaries; they are embedded as token lists scanned over the text. -/

inductive RTok where
  | lit (s : List Char)
  | one (p : Char → Bool)
  | opt1 (p : Char → Bool)
  | star (p : Char → Bool)

/-- One alternative of a pattern: optional leading/trailing word boundary
around a token sequence. -/
structure RAlt where
  startB : Bool
  toks : List RTok
  endB : Bool

/-- Greedy matcher with single-character backtracking for `opt1`/`star`
(sufficient for the patterns below, whose classes never overlap the
following literal's first character).  Returns the rest after the match. -/
def matchToks : Nat → List RTok → List Char → Option (List Char)
  | 0, _, _ => none
  | _ + 1, [], cs => some cs
  | fuel + 1, RTok.lit l :: ts, cs =>
      if isPreList l cs then matchToks fuel ts (cs.drop l.length) else none
  | fuel + 1, RTok.one p :: ts, cs =>
      match cs with
      | c :: r => if p c then matchToks fuel ts r else none
      | [] => none
  | fuel + 1, RTok.opt1 p :: ts, cs =>
      match cs with
      | c :: r =>
          if p c then
            match matchToks fuel ts r with
            | some out => some out
            | none => matchToks fuel ts (c :: r)
          else matchToks fuel ts (c :: r)
      | [] => matchToks fuel ts []
  | fuel + 1, RTok.star p :: ts, cs =>
      match cs with
      | c :: r =>
          if p c then
            match matchToks fuel (RTok.star p :: ts) r with
            | some out => some out
            | none => matchToks fuel ts (c :: r)
          else matchToks fuel ts (c :: r)
      | [] => matchToks fuel ts []

def altMatchesAt (a : RAlt) (prev : Option Char) (cs : List Char) : Bool :=
  (!a.startB || boundaryOK prev) &&
    match matchToks (a.toks.length + cs.length + 1) a.toks cs with
    | some rest => !a.endB || boundaryAfter rest
    | none => false

/-- `re.search` for an alternation of `RAlt`s: try every alternative at
every position, left to right. -/
def rscanGo (alts : List RAlt) (prev : Option Char) : List Char → Bool
  | [] => false
  | c :: rest =>
      alts.any (fun a => altMatchesAt a prev (c :: rest)) ||
        rscanGo alts (some c) rest

def rsearch (alts : List RAlt) (s : String) : Bool := rscanGo alts none s.data

/-- Dash-or-whitespace class `[-\s]`. -/
def isDashWs (c : Char) : Bool := c = '-' || isPySpace c

/-- `\bpalm(olein| oil)?\b` (utils.py 268, 483, 529). -/
def palmAlts : List RAlt :=
  [⟨true, [RTok.lit "palmolein".data], true⟩,
   ⟨true, [RTok.lit "palm oil".data], true⟩,
   ⟨true, [RTok.lit "palm".data], true⟩]

/-- `\b(fried|deep[-\s]?fried|fried snack)\b` (utils.py 274, 530). -/
def friedAlts : List RAlt :=
  [⟨true, [RTok.lit "fried".data], true⟩,
   ⟨true, [RTok.lit "deep".data, RTok.opt1 isDashWs, RTok.lit "fried".data], true⟩,
   ⟨true, [RTok.lit "fried snack".data], true⟩]

/-- `\b(extruded|puffed)\b` (utils.py 275, 531). -/
def extrudedAlts : List RAlt :=
  [⟨true, [RTok.lit "extruded".data], true⟩,
   ⟨true, [RTok.lit "puffed".data], true⟩]

/-- `\b(flavo(u)?r\s*enhancer|enhanced with|taste enhancer)\b` (utils.py 475). -/
def flavEnhAlts : List RAlt :=
  [⟨true, [RTok.lit "flavo".data, RTok.opt1 (fun c => c = 'u'), RTok.lit "r".data,
           RTok.star isPySpace, RTok.lit "enhancer".data], true⟩,
   ⟨true, [RTok.lit "enhanced with".data], true⟩,
   ⟨true, [RTok.lit "taste enhancer".data], true⟩]

/-- `\b(msg|monosodium glutamate)\b` (utils.py 271, 499, 554). -/
def msgAlts : List RAlt :=
  [⟨true, [RTok.lit "msg".data], true⟩,
   ⟨true, [RTok.lit "monosodium glutamate".data], true⟩]

/-- `\b(artificial|nature[-\s]*identical)\s+flavo(u)?r` (utils.py 493);
no trailing boundary. -/
def artFlavAlts : List RAlt :=
  [⟨true, [RTok.lit "artificial".data, RTok.one isPySpace, RTok.star isPySpace,
           RTok.lit "flavo".data, RTok.opt1 (fun c => c = 'u'), RTok.lit "r".data], false⟩,
   ⟨true, [RTok.lit "nature".data, RTok.star isDashWs, RTok.lit "identical".data,
           RTok.one isPySpace, RTok.star isPySpace,
           RTok.lit "flavo".data, RTok.opt1 (fun c => c = 'u'), RTok.lit "r".data], false⟩]

/-- `\b(artificial|synthetic)\s+colou?r\b|caramel colou?r` (utils.py 495);
the caramel alternative carries no word boundaries. -/
def artColAlts : List RAlt :=
  [⟨true, [RTok.lit "artificial".data, RTok.one isPySpace, RTok.star isPySpace,
           RTok.lit "colo".data, RTok.opt1 (fun c => c = 'u'), RTok.lit "r".data], true⟩,
   ⟨true, [RTok.lit "synthetic".data, RTok.one isPySpace, RTok.star isPySpace,
           RTok.lit "colo".data, RTok.opt1 (fun c => c = 'u'), RTok.lit "r".data], true⟩,
   ⟨false, [RTok.lit "caramel colo".data, RTok.opt1 (fun c => c = 'u'),
            RTok.lit "r".data], false⟩]

/-- `\b(fried|deep[-\s]?fried|extruded|puffed)\b` (utils.py 497). -/
def friedExtrudedAlts : List RAlt :=
  [⟨true, [RTok.lit "fried".data], true⟩,
   ⟨true, [RTok.lit "deep".data, RTok.opt1 isDashWs, RTok.lit "fried".data], true⟩,
   ⟨true, [RTok.lit "extruded".data], true⟩,
   ⟨true, [RTok.lit "puffed".data], true⟩]

/-- `\b(palm oil|palmolein)\b` (utils.py 556) — unlike `palmAlts`, a bare
"palm" does not match here. -/
def palmCapAlts : List RAlt :=
  [⟨true, [RTok.lit "palm oil".data], true⟩,
   ⟨true, [RTok.lit "palmolein".data], true⟩]

/-! ### Score engine (utils.py 390-572) -/

/-- One entry of the additive list passed to the engine
(`{"code": ..., "name": ..., "risk": ...}`). -/
structure AdditiveInfo where
  code : String
  name : String
  risk : String

/-- `MSG_LIKE` (utils.py 117). -/
def MSG_LIKE : List String :=
  ["621", "622", "623", "624", "625", "627", "631"]

/-- `_negative_points` (utils.py 390-409). -/
def negative_points (energy_kj sugar_g sat_fat_g sodium_mg : Option ℚ)
    (beverage : Bool) : ℚ :=
  min 30
    ((match energy_kj with
      | some v => min 10 (max 0 (v / 188))
      | none => 0) +
     (match sugar_g with
      | some v => if beverage then min 10 (v / (9 / 5)) else min 10 (v / (14 / 5))
      | none => 0) +
     (match sat_fat_g with
      | some v => min 10 (v / (13 / 10))
      | none => 0) +
     (match sodium_mg with
      | some v => min 10 (v / 230)
      | none => 0))

/-- `_positive_points` (utils.py 411-423). -/
def positive_points (fiber_g protein_g fruit_pct : Option ℚ) : ℚ :=
  min 16
    ((match fiber_g with
      | some v => min 6 (v / (6 / 5))
      | none => 0) +
     (match protein_g with
      | some v => min 5 (v / (11 / 5))
      | none => 0) +
     (match fruit_pct with
      | some v =>
          if v ≥ 80 then 5 else if v ≥ 60 then 4 else if v ≥ 40 then 3
          else if v ≥ 20 then 2 else if v ≥ 5 then 1 else 0
      | none => 0))

/-- The numeric body of an additive code: `code.replace("INS","").replace("E","")[:3]`. -/
def codeBare3 (code : String) : String :=
  take3Str (removeAll (removeAll code "INS") "E")

/-- Penalty contributed by one additive (the loop body of
`_additive_penalties`, utils.py 430-458). -/
def additive_penalty_one (a : AdditiveInfo) : ℚ :=
  (if pyLower a.risk = "avoid" then 10
   else if pyLower a.risk = "moderate" then 5
   else if pyLower a.risk = "caution" then 4
   else if pyLower a.risk = "generally safe" then 0
   else if pyLower a.risk = "unknown" then 1
   else 0) +
  (if MSG_LIKE.contains (codeBare3 (removeSpaces (pyUpper a.code))) then 2 else 0) +
  (if ["E102", "E104", "E110", "E122", "E124", "E129"].contains
        (removeSpaces (pyUpper a.code)) then 5 else 0) +
  (if ["E249", "E250", "E251", "E252"].contains
        (removeSpaces (pyUpper a.code)) then 10 else 0) +
  (if ["E319", "E320", "E321"].contains
        (removeSpaces (pyUpper a.code)) then 8 else 0)

/-- `_additive_penalties` (utils.py 425-460). -/
def additive_penalties (additives : List AdditiveInfo) : ℚ :=
  min (additives.foldl (fun acc a => acc + additive_penalty_one a) 0) 36

/-- `_processing_penalty` (utils.py 462-477); the three flag booleans are
computed by the caller from the lower-cased ingredients text. -/
def processing_penalty (text : String) (palmOil fried extruded : Bool) : ℚ :=
  min 12
    ((if fried then 5 else 0) + (if extruded then 4 else 0) +
     (if palmOil then 4 else 0) +
     (if rsearch flavEnhAlts (pyLower text) then 2 else 0))

/-- `_keyword_penalties` (utils.py 479-502): each matched phrase family
contributes its labelled delta once, in source order. -/
def keyword_penalties (ingredients_text : String) : List (String × ℚ) :=
  (if rsearch palmAlts (pyLower ingredients_text) then
     [("Palm oil", (-6 : ℚ))] else []) ++
  (if pyIn "hydrogenated" (pyLower ingredients_text) ||
      pyIn "partially hydrogenated" (pyLower ingredients_text) then
     [("Hydrogenated/partially hydrogenated oils", (-20 : ℚ))] else []) ++
  (if ["sugar", "glucose", "fructose", "hfcs", "corn syrup", "invert syrup",
       "malt syrup", "dextrose"].any (fun w => pyIn w (pyLower ingredients_text)) then
     [("Added sugars/syrups", (-8 : ℚ))] else []) ++
  (if pyIn "salt" (pyLower ingredients_text) ||
      pyIn "sodium chloride" (pyLower ingredients_text) then
     [("Added salt", (-4 : ℚ))] else []) ++
  (if ["acesulfame", "sucralose", "aspartame", "saccharin", "cyclamate",
       "neotame", "advantame"].any (fun w => pyIn w (pyLower ingredients_text)) then
     [("Artificial sweeteners", (-5 : ℚ))] else []) ++
  (if rsearch artFlavAlts (pyLower ingredients_text) then
     [("Artificial flavour", (-5 : ℚ))] else []) ++
  (if rsearch artColAlts (pyLower ingredients_text) then
     [("Added colours", (-5 : ℚ))] else []) ++
  (if rsearch friedExtrudedAlts (pyLower ingredients_text) then
     [("Fried/extruded processing", (-6 : ℚ))] else []) ++
  (if rsearch msgAlts (pyLower ingredients_text) then
     [("MSG", (-6 : ℚ))] else [])

/-- The tail of `compute_health_score` after the negative/positive points
and penalty terms are in hand (utils.py 524-564): base formula, penalty
subtraction, keyword deltas, trans-fat deduction, the hard caps, the
sparse-data guardrail and the final integer clamp. -/
def scoreFinish (neg pos add_pen proc_pen kw : ℚ)
    (transHigh cAvoid cNitrite cColour cMsg cPalm : Bool)
    (knownLen : Nat) : ℤ :=
  let s1 : ℚ := 78 - neg * 2 + pos * (9 / 5)
  let s2 : ℚ := s1 - min 28 add_pen - min 10 proc_pen
  let s3 : ℚ := s2 + kw
  let s4 : ℚ := if transHigh then s3 - 18 else s3
  let s5 : ℚ := if cAvoid then min s4 50 else s4
  let s6 : ℚ := if cNitrite then min s5 40 else s5
  let s7 : ℚ := if cColour then min s6 58 else s6
  let s8 : ℚ := if cMsg then s7 - 5 else s7
  let s9 : ℚ := if cPalm then min s8 62 else s8
  let s10 : ℚ := if knownLen ≤ 1 then max 35 (min 65 s9) else s9
  max 0 (min 100 (pyRound s10))

/-- `len([x for x in [energy, sugar, sat, sodium, fiber, protein] if x is not None])`
(utils.py 560). -/
def knownCount (n : Nutrition) : Nat :=
  ([n.energy_kj, n.sugar_g, n.sat_fat_g, n.sodium_mg, n.fiber_g,
    n.protein_g].countP (fun x => x.isSome))

/-- `compute_health_score` (utils.py 504-564). -/
def compute_health_score (nutrition : Nutrition) (additives : List AdditiveInfo)
    (ingredients_text : String) (beverage : Bool) : ℤ :=
  scoreFinish
    (negative_points nutrition.energy_kj nutrition.sugar_g nutrition.sat_fat_g
      nutrition.sodium_mg beverage)
    (positive_points nutrition.fiber_g nutrition.protein_g nutrition.fruit_pct)
    (additive_penalties additives)
    (processing_penalty ingredients_text
      (rsearch palmAlts (pyLower ingredients_text))
      (rsearch friedAlts (pyLower ingredients_text))
      (rsearch extrudedAlts (pyLower ingredients_text)))
    (((keyword_penalties ingredients_text).map Prod.snd).sum)
    (decide (nutrition.trans_fat_g.getD 0 > 1 / 10))
    (additives.any (fun a => pyLower a.risk = "avoid"))
    (["E249", "E250", "E251", "E252"].any
      (fun c => (additives.map (fun a => pyUpper a.code)).contains c))
    (["E102", "E110", "E129", "E124", "E122", "E104"].any
      (fun c => (additives.map (fun a => pyUpper a.code)).contains c))
    (rsearch msgAlts (pyLower ingredients_text) ||
      (additives.map (fun a => pyUpper a.code)).any
        (fun c => MSG_LIKE.contains (codeBare3 c)))
    (rsearch palmCapAlts (pyLower ingredients_text))
    (knownCount nutrition)

/-- `grade_from_score` (utils.py 566-572). -/
def grade_from_score (score : ℤ) : String :=
  if score ≥ 85 then "A+"
  else if score ≥ 75 then "A"
  else if score ≥ 65 then "B"
  else if score ≥ 50 then "C"
  else if score ≥ 35 then "D"
  else "E"

/-! ### Structural lemmas about `scoreFinish` -/

lemma ite_min_mono {x y : ℚ} (c : Bool) (k : ℚ) (h : x ≤ y) :
    (if c then min x k else x) ≤ (if c then min y k else y) := by
  cases c
  · simpa using h
  · simpa using min_le_min h le_rfl

lemma ite_sub_mono {x y : ℚ} (c : Bool) (k : ℚ) (h : x ≤ y) :
    (if c then x - k else x) ≤ (if c then y - k else y) := by
  cases c
  · simpa using h
  · simpa using sub_le_sub_right h k

lemma ite_guard_mono {x y : ℚ} (c : Prop) [Decidable c] (h : x ≤ y) :
    (if c then max 35 (min 65 x) else x) ≤ (if c then max 35 (min 65 y) else y) := by
  by_cases hc : c
  · simpa [hc] using max_le_max le_rfl (min_le_min le_rfl h)
  · simpa [hc] using h

/-- `scoreFinish` is antitone in the negative points and monotone in the
positive points, all other inputs fixed. -/
lemma scoreFinish_mono {neg1 neg2 pos1 pos2 : ℚ}
    (add_pen proc_pen kw : ℚ) (transHigh cAvoid cNitrite cColour cMsg cPalm : Bool)
    (knownLen : Nat) (hn : neg2 ≤ neg1) (hp : pos1 ≤ pos2) :
    scoreFinish neg1 pos1 add_pen proc_pen kw transHigh cAvoid cNitrite cColour
        cMsg cPalm knownLen ≤
      scoreFinish neg2 pos2 add_pen proc_pen kw transHigh cAvoid cNitrite cColour
        cMsg cPalm knownLen := by
  simp only [scoreFinish]
  refine max_le_max le_rfl (min_le_min le_rfl (pyRound_mono ?_))
  refine ite_guard_mono _ ?_
  refine ite_min_mono _ _ ?_
  refine ite_sub_mono _ _ ?_
  refine ite_min_mono _ _ ?_
  refine ite_min_mono _ _ ?_
  refine ite_min_mono _ _ ?_
  refine ite_sub_mono _ _ ?_
  nlinarith [hn, hp]

lemma ite_min_le_self {x : ℚ} (c : Bool) (k : ℚ) :
    (if c then min x k else x) ≤ x := by
  cases c
  · simp
  · simp [min_le_left]

lemma ite_sub_le_self {x k : ℚ} (c : Bool) (hk : 0 ≤ k) :
    (if c then x - k else x) ≤ x := by
  cases c
  · simp
  · simp; linarith

/-- Once the running score is at most `B ≥ 35`, the guardrail keeps it at
most `B`. -/
lemma ite_guard_le {x B : ℚ} (c : Prop) [Decidable c] (hx : x ≤ B) (hB : 35 ≤ B) :
    (if c then max 35 (min 65 x) else x) ≤ B := by
  by_cases hc : c
  · simp only [hc, if_pos]
    exact max_le hB ((min_le_right _ _).trans hx)
  · simpa [hc] using hx

/-- The "avoid"-tier hard cap: with `cAvoid` set, `scoreFinish` is at
most 50 whatever the other inputs are. -/
lemma scoreFinish_avoid_le (neg pos add_pen proc_pen kw : ℚ)
    (transHigh cNitrite cColour cMsg cPalm : Bool) (knownLen : Nat) :
    scoreFinish neg pos add_pen proc_pen kw transHigh true cNitrite cColour
      cMsg cPalm knownLen ≤ 50 := by
  simp only [scoreFinish]
  refine max_le (by norm_num) ((min_le_right _ _).trans (pyRound_le_int ?_))
  push_cast
  refine ite_guard_le _ ?_ (by norm_num)
  refine le_trans (ite_min_le_self _ _) ?_
  refine le_trans (ite_sub_le_self _ (by norm_num)) ?_
  refine le_trans (ite_min_le_self _ _) ?_
  refine le_trans (ite_min_le_self _ _) ?_
  exact min_le_right _ _

/-- The sparse-data guardrail: with at most one known nutrient the final
score lies in `[35, 65]`. -/
lemma scoreFinish_sparse_bounds (neg pos add_pen proc_pen kw : ℚ)
    (transHigh cAvoid cNitrite cColour cMsg cPalm : Bool)
    {knownLen : Nat} (h : knownLen ≤ 1) :
    35 ≤ scoreFinish neg pos add_pen proc_pen kw transHigh cAvoid cNitrite
        cColour cMsg cPalm knownLen ∧
      scoreFinish neg pos add_pen proc_pen kw transHigh cAvoid cNitrite
        cColour cMsg cPalm knownLen ≤ 65 := by
  simp only [scoreFinish, h, if_pos]
  constructor
  · refine le_max_of_le_right (le_min (by norm_num) (int_le_pyRound ?_))
    push_cast
    exact le_max_left _ _
  · refine max_le (by norm_num) ((min_le_right _ _).trans (pyRound_le_int ?_))
    push_cast
    exact max_le (by norm_num) (min_le_left _ _)

/-- The sugar term of `_negative_points` is monotone in the sugar value. -/
lemma negative_points_sugar_mono {a b : ℚ} (e sf so : Option ℚ) (bev : Bool)
    (hab : a ≤ b) :
    negative_points e (some a) sf so bev ≤ negative_points e (some b) sf so bev := by
  unfold negative_points
  refine min_le_min le_rfl ?_
  have hs : (if bev then min 10 (a / (9 / 5)) else min 10 (a / (14 / 5))) ≤
      (if bev then min 10 (b / (9 / 5)) else min 10 (b / (14 / 5))) := by
    cases bev
    · simp only [Bool.false_eq_true, if_neg, not_false_iff]
      refine min_le_min le_rfl ?_
      gcongr
    · simp only [if_pos]
      refine min_le_min le_rfl ?_
      gcongr
  linarith

/-- The fiber term of `_positive_points` is monotone in the fiber value. -/
lemma positive_points_fiber_mono {a b : ℚ} (pr fr : Option ℚ) (hab : a ≤ b) :
    positive_points (some a) pr fr ≤ positive_points (some b) pr fr := by
  unfold positive_points
  refine min_le_min le_rfl ?_
  have hs : min 6 (a / (6 / 5)) ≤ min 6 (b / (6 / 5)) := by
    refine min_le_min le_rfl ?_
    gcongr
  linarith

/-- A score in `[35, 65]` grades as "B", "C" or "D". -/
lemma grade_mid {s : ℤ} (h35 : 35 ≤ s) (h65 : s ≤ 65) :
    grade_from_score s = "B" ∨ grade_from_score s = "C" ∨
      grade_from_score s = "D" := by
  unfold grade_from_score
  split_ifs <;> first
    | (exfalso; omega)
    | simp

/-! ### Claim theorems -/

/-- A raw record whose `sodium_100g` is present but not parseable as a
number (e.g. `{"sodium_100g": "abc"}`). -/
def c1_bad_record : RawNutr := { RawNutr.empty with sodium_100g := RawVal.bad }

/-- C1 (code bug): `coerce_nutrition` is claimed never to raise, with every
unparseable field coming out unknown; but on a record whose `sodium_100g`
is present and unparseable the source evaluates
`_to_float(...) * 1000.0` on `None` and raises `TypeError`, modelled here
as the `none` result. -/
theorem coerce_nutrition_sodium_typeerror :
    c1_bad_record.sodium_100g.isNone = false ∧
    to_float c1_bad_record.sodium_100g = none ∧
    coerce_nutrition c1_bad_record = none := by
  decide

/-- C2: any additive whose risk tier lower-cases to "avoid" caps the final
score at 50; the later caps, MSG deduction, palm cap, sparse-data
guardrail, rounding and final clamp never raise it back above 50. -/
theorem avoid_additive_caps_score (n : Nutrition) (additives : List AdditiveInfo)
    (ingredients_text : String) (beverage : Bool)
    (h : ∃ a ∈ additives, pyLower a.risk = "avoid") :
    compute_health_score n additives ingredients_text beverage ≤ 50 := by
  obtain ⟨a, ha, hr⟩ := h
  have hb : (additives.any fun x => decide (pyLower x.risk = "avoid")) = true :=
    List.any_eq_true.mpr ⟨a, ha, decide_eq_true hr⟩
  unfold compute_health_score
  rw [hb]
  exact scoreFinish_avoid_le _ _ _ _ _ _ _ _ _ _ _

/-- Witness for C2 at a concrete profile containing Aspartame (risk "avoid"). -/
theorem avoid_additive_caps_score_witness :
    compute_health_score empty_nutrition [⟨"E951", "Aspartame", "avoid"⟩] "" false ≤ 50 :=
  avoid_additive_caps_score _ _ _ _
    ⟨⟨"E951", "Aspartame", "avoid"⟩, List.mem_singleton.mpr rfl, by decide⟩

/-- C3: holding every other input fixed and the varied field present in
both runs, increasing `sugar_g` never increases the score and increasing
`fiber_g` never decreases it. -/
theorem score_monotone_sugar_fiber (n : Nutrition) (additives : List AdditiveInfo)
    (ingredients_text : String) (beverage : Bool) (a b : ℚ) (hab : a ≤ b) :
    (compute_health_score { n with sugar_g := some b } additives ingredients_text beverage ≤
      compute_health_score { n with sugar_g := some a } additives ingredients_text beverage) ∧
    (compute_health_score { n with fiber_g := some a } additives ingredients_text beverage ≤
      compute_health_score { n with fiber_g := some b } additives ingredients_text beverage) := by
  constructor
  · unfold compute_health_score
    exact scoreFinish_mono _ _ _ _ _ _ _ _ _ _
      (negative_points_sugar_mono _ _ _ _ hab) le_rfl
  · unfold compute_health_score
    exact scoreFinish_mono _ _ _ _ _ _ _ _ _ _ le_rfl
      (positive_points_fiber_mono _ _ hab)

/-- Witness for C3 at sugar/fiber values 1 and 2 on the empty profile. -/
theorem score_monotone_sugar_fiber_witness :
    (compute_health_score { empty_nutrition with sugar_g := some 2 } [] "" false ≤
      compute_health_score { empty_nutrition with sugar_g := some 1 } [] "" false) ∧
    (compute_health_score { empty_nutrition with fiber_g := some 1 } [] "" false ≤
      compute_health_score { empty_nutrition with fiber_g := some 2 } [] "" false) :=
  score_monotone_sugar_fiber empty_nutrition [] "" false 1 2 (by norm_num)

/-- C4: when at most one of the six core nutrients is known, the returned
score lies in [35, 65] regardless of the magnitude of the known value and
of the additive or text penalties. -/
theorem sparse_guardrail_score_bounds (n : Nutrition) (additives : List AdditiveInfo)
    (ingredients_text : String) (beverage : Bool) (h : knownCount n ≤ 1) :
    35 ≤ compute_health_score n additives ingredients_text beverage ∧
      compute_health_score n additives ingredients_text beverage ≤ 65 := by
  unfold compute_health_score
  exact scoreFinish_sparse_bounds _ _ _ _ _ _ _ _ _ _ _ h

/-- Witness for C4: a profile with only `protein_g` known (value 1000). -/
theorem sparse_guardrail_score_bounds_witness :
    35 ≤ compute_health_score { empty_nutrition with protein_g := some 1000 } [] "" false ∧
      compute_health_score { empty_nutrition with protein_g := some 1000 } [] "" false ≤ 65 :=
  sparse_guardrail_score_bounds { empty_nutrition with protein_g := some 1000 } [] "" false
    (by decide)

/-- A record carrying both a grams sodium field and a milligrams sodium field. -/
def raw_sodium_both : RawNutr :=
  { RawNutr.empty with sodium_100g := RawVal.num 1, sodium_mg_100g := RawVal.num 5 }

/-- A record with only `salt_100g = 1.0`. -/
def raw_salt_one : RawNutr := { RawNutr.empty with salt_100g := RawVal.num 1 }

/-- A record with only `sodium_100g = 0.4`. -/
def raw_sodium_04 : RawNutr := { RawNutr.empty with sodium_100g := RawVal.num (2 / 5) }

unseal Rat.add Rat.mul Rat.inv Rat.sub in
/-- C5 counterexample: the claim puts the sodium-in-mg field first, but the
source checks the grams field `sodium_100g` first; with
`sodium_100g = 1` and `sodium_mg_100g = 5` the code yields 1000 mg, not
the 5 mg the claimed priority order would give. -/
theorem sodium_priority_counterexample :
    (coerce_nutrition raw_sodium_both).map Nutrition.sodium_mg = some (some 1000) ∧
    ¬ (coerce_nutrition raw_sodium_both).map Nutrition.sodium_mg = some (some 5) := by
  decide

/-- C5 (amended): sodium resolution tries `sodium_100g` (grams, ×1000)
first, then `sodium_mg_100g` (direct), then `salt_100g` (×393); the first
present field wins.  Concretely `salt_100g = 1.0` gives 393 mg (within
0.5) and `sodium_100g = 0.4` gives exactly 400 mg. -/
theorem sodium_priority_amended :
    (∀ (r : RawNutr) (a : ℚ), r.sodium_100g.isNone = false →
      r.sodium_100g.parse = some a →
      (coerce_nutrition r).map Nutrition.sodium_mg = some (some (a * 1000))) ∧
    (∀ (r : RawNutr) (b : ℚ), r.sodium_100g.isNone = true →
      r.sodium_mg_100g.isNone = false → r.sodium_mg_100g.parse = some b →
      (coerce_nutrition r).map Nutrition.sodium_mg = some (some b)) ∧
    (∀ (r : RawNutr) (c : ℚ), r.sodium_100g.isNone = true →
      r.sodium_mg_100g.isNone = true → r.salt_100g.isNone = false →
      r.salt_100g.parse = some c →
      (coerce_nutrition r).map Nutrition.sodium_mg = some (some (c * 393))) ∧
    ((coerce_nutrition raw_salt_one).map Nutrition.sodium_mg = some (some 393) ∧
      |(393 : ℚ) - 393| ≤ 1 / 2) ∧
    (coerce_nutrition raw_sodium_04).map Nutrition.sodium_mg = some (some 400) := by
  refine ⟨?_, ?_, ?_, ⟨?_, by norm_num⟩, ?_⟩
  · intro r a h1 h2
    simp [coerce_nutrition, to_float, h1, h2]
  · intro r b h1 h2 h3
    simp [coerce_nutrition, to_float, h1, h2, h3]
  · intro r c h1 h2 h3 h4
    simp [coerce_nutrition, to_float, h1, h2, h3, h4]
  · simp [coerce_nutrition, to_float, raw_salt_one, RawNutr.empty, RawVal.num, RawVal.absent]
  · norm_num [coerce_nutrition, to_float, raw_sodium_04, RawNutr.empty, RawVal.num,
      RawVal.absent]

unseal Rat.add Rat.mul Rat.inv Rat.sub in
/-- Witness for C5 applying the grams-first branch at `sodium_100g = 0.4`. -/
theorem sodium_priority_amended_witness :
    (coerce_nutrition raw_sodium_04).map Nutrition.sodium_mg = some (some ((2 / 5) * 1000)) :=
  sodium_priority_amended.1 raw_sodium_04 (2 / 5) (by decide) (by decide)

unseal Rat.add Rat.mul Rat.inv Rat.sub in
/-- C6 counterexample: in the token "sugar 30%" the bare percentage is
extracted as the percent value but is NOT removed from the displayed name
(the substitution regex only removes the parenthesized form), so the entry
keeps "30%" in its name. -/
theorem bare_percent_kept_counterexample :
    (parse_ingredients_items "sugar 30%").map Prod.fst = ["sugar 30%"] ∧
    ¬ (parse_ingredients_items "sugar 30%").map Prod.fst = ["sugar"] ∧
    (parse_ingredients_items "sugar 30%").map Prod.snd = [some 30] := by
  decide

unseal Rat.add Rat.mul Rat.inv Rat.sub in
/-- C6 (amended): a percentage annotation — parenthesized or bare — is
extracted as the entry's percent (first match, as a float), but only the
parenthesized "(NN%)" form is removed from the displayed name; a bare
"NN%" stays in the name. -/
theorem percent_annotation_amended :
    parse_ingredients_items "cocoa (45%)" = [("cocoa", some 45)] ∧
    parse_ingredients_items "sugar 30%" = [("sugar 30%", some 30)] ∧
    pyIn "30%" "sugar 30%" = true := by
  decide

/-- C7: `extract_additives "Contains INS 150d and E621"` returns exactly
`["INS150D", "E621"]`; a bare numeric code is canonicalized with an `E`
prefix, a code mentioned with an explicit `INS` prefix anywhere in the
source text canonicalizes to the `INS` form, and the output is
deduplicated by canonical code preserving first-seen order (hence never
contains duplicates). -/
theorem extract_additives_canonical_spec :
    extract_additives "Contains INS 150d and E621" = ["INS150D", "E621"] ∧
    extract_additives "Contains 150d" = ["E150D"] ∧
    extract_additives "E621, e-621 and INS 621" = ["INS621"] ∧
    ∀ t : String, (extract_additives t).Nodup :=
  ⟨by decide, by decide, by decide, extract_additives_nodup⟩

/-- A product whose name carries a non-beverage-liquid keyword while its
category string carries a beverage keyword. -/
def oil_juice_product : Product := ⟨some "sunflower oil", some "juice", some ""⟩

/-- C8 counterexample: the source checks each textual field completely
(name first) before looking at the next, so a name containing "oil"
decides "not beverage" even though the category contains the beverage
keyword "juice"; the claimed order — beverage keywords over name OR
category before any non-beverage check — would return true. -/
theorem beverage_decision_order_counterexample :
    is_beverage oil_juice_product = false ∧
    is_beverage_claim_order oil_juice_product = true := by
  decide

/-- C8 (amended): `is_beverage` short-circuits per textual field — for the
name and then the category string, a beverage keyword decides true and
otherwise a non-beverage-liquid keyword decides false — before falling
through to the ml/l quantity heuristic guarded by the name keywords. -/
theorem beverage_per_field_decision (p : Product) :
    is_beverage p = is_beverage_per_field p := by
  unfold is_beverage is_beverage_per_field beverage_field_verdict
  split_ifs <;> rfl

/-- C9: `split_top_level_commas` splits only on commas at paren depth 0
(`"a, b(c, d), e"` keeps the inner list together), clamps the depth at
zero on stray closing parens (`")x, y(a, b"` still splits at the top-level
comma and keeps the trailing unbalanced group), drops empty tokens, and
preserves source order; moreover no returned part is ever empty. -/
theorem split_top_level_commas_spec :
    split_top_level_commas "a, b(c, d), e" = ["a", "b(c, d)", "e"] ∧
    split_top_level_commas ")x, y(a, b" = [")x", "y(a, b"] ∧
    split_top_level_commas "a,,b," = ["a", "b"] ∧
    ∀ (s p : String), p ∈ split_top_level_commas s → p ≠ "" :=
  ⟨by decide, by decide, by decide, fun s p hp => stlcGo_no_empty s.data [] 0 p hp⟩

/-- Witness for C9's universally quantified part at a concrete split. -/
theorem split_top_level_commas_spec_witness : ("a" : String) ≠ "" :=
  split_top_level_commas_spec.2.2.2 "a,b" "a" (by decide)

set_option maxRecDepth 8000 in
unseal Rat.add Rat.mul Rat.inv Rat.sub in
/-- C10 counterexample: with the all-unknown OCR nutrition profile, no
additives and empty text the engine returns 65 and the grade is "B" (the
65 cutoff is inclusive), so the OCR endpoints are not limited to grades
"C" and "D". -/
theorem ocr_empty_profile_grade_counterexample :
    compute_health_score empty_nutrition [] "" false = 65 ∧
    grade_from_score (compute_health_score empty_nutrition [] "" false) = "B" ∧
    ¬ (grade_from_score (compute_health_score empty_nutrition [] "" false) = "C" ∨
       grade_from_score (compute_health_score empty_nutrition [] "" false) = "D") := by
  decide

/-- C10 (amended): both OCR-path endpoints call the engine with the
all-unknown nutrition profile, so for every additive list, ingredients
text and beverage flag the score lies in [35, 65] and the grade is "B",
"C" or "D" — never "A+", "A" or "E" ("B" occurs exactly at score 65). -/
theorem ocr_empty_profile_band_amended (additives : List AdditiveInfo)
    (ingredients_text : String) (beverage : Bool) :
    (35 ≤ compute_health_score empty_nutrition additives ingredients_text beverage ∧
      compute_health_score empty_nutrition additives ingredients_text beverage ≤ 65) ∧
    (grade_from_score
        (compute_health_score empty_nutrition additives ingredients_text beverage) = "B" ∨
      grade_from_score
        (compute_health_score empty_nutrition additives ingredients_text beverage) = "C" ∨
      grade_from_score
        (compute_health_score empty_nutrition additives ingredients_text beverage) = "D") := by
  have hb : 35 ≤ compute_health_score empty_nutrition additives ingredients_text beverage ∧
      compute_health_score empty_nutrition additives ingredients_text beverage ≤ 65 := by
    unfold compute_health_score
    exact scoreFinish_sparse_bounds _ _ _ _ _ _ _ _ _ _ _ (by decide)
  exact ⟨hb, grade_mid hb.1 hb.2⟩

end ScoreMyFood
